import Mathlib

/-!
Verification of the NOAA NCAI learning-journey notebooks.

The repository holds Jupyter notebooks whose code cells are short Python
scripts.  Four notebooks carry executable code in the sources examined here:

* Echofish Chapter 1, "Processing EK60 Data on AWS",
* Echofish Chapter 2, "Frequency Differencing with L2 EK60 Data",
* Echofish Chapter 3, "Geospatial Indexing",
* TC PRIMED Chapter 1a, "NetCDF Files".

The definitions below embed the code cells of those notebooks: the
package-setup loops, the remote data acquisition, the xarray selection and
frequency-differencing pipeline of Chapter 2, and the Shapely line
simplification invoked by Chapter 3.  Values carried by sonar arrays are
modelled as `Option ℚ` with `none` standing for NaN; np.datetime64 instants
are modelled as integers (seconds since the Unix epoch).
-/

namespace LearningJourney

/-! ## The package-setup cells

Each notebook opens with the same loop:

    for package in PACKAGES:
        try:
            __import__(package)
        except ImportError:
            subprocess.check_call([sys.executable, '-m', 'pip', 'install', package])

Echofish Chapter 1 additionally rewrites `package` to `'echopype==0.8.4'`
inside the `except` branch when the missing package is `echopype`, and
Chapter 3 likewise pins `geopandas==0.13.1`.  The loop is embedded as a
function of the interpreter state: `imp p` is what `__import__(p)` does
(returns or raises), `pipOk s` tells whether `pip install s` succeeds, and
`pin` is the requirement-string rewrite applied inside the `except` branch.
The result is the list of pip requirement strings actually installed, or the
first uncaught Python error. -/

/-- Errors a cell operation can raise: `importError` from `__import__`,
`calledProcessError` from `subprocess.check_call`, or any other error. -/
inductive PyError where
  | importError
  | calledProcessError
  | otherError
deriving DecidableEq, Repr

/-- The `__import__` call of a package-setup cell when the environment is
described by a predicate saying which packages are importable: it returns
normally or raises `ImportError`. -/
def importAttempt (importable : String → Bool) (p : String) : Except PyError Unit :=
  if importable p then Except.ok () else Except.error PyError.importError

/-- The `subprocess.check_call([... 'pip', 'install', s])` invocation:
raises `CalledProcessError` when pip fails. -/
def pipInstall (pipOk : String → Bool) (s : String) : Except PyError Unit :=
  if pipOk s then Except.ok () else Except.error PyError.calledProcessError

/-- The package-setup loop of a notebook.  `imp` is the behaviour of
`__import__` in the current interpreter state (it may raise any `PyError`),
`pipOk` the behaviour of the pip subprocess, `pin` the requirement-string
rewrite done inside the `except ImportError` branch.  Returns the pip
requirement strings installed, in order, or the first uncaught error: the
`try`/`except` catches `ImportError` alone, so any other error from
the import attempt, and any pip failure, propagates to the cell boundary. -/
def runInstallCell (imp : String → Except PyError Unit) (pipOk : String → Bool)
    (pin : String → String) : List String → Except PyError (List String)
  | [] => Except.ok []
  | p :: ps =>
    match imp p with
    | Except.ok () => runInstallCell imp pipOk pin ps
    | Except.error PyError.importError =>
      match pipInstall pipOk (pin p) with
      | Except.ok () => Except.map (fun l => pin p :: l) (runInstallCell imp pipOk pin ps)
      | Except.error e => Except.error e
    | Except.error e => Except.error e

/-- PACKAGES of the Echofish Chapter 1 setup cell. -/
def chapter1_PACKAGES : List String := ["boto3", "botocore", "echopype"]

/-- PACKAGES of the Echofish Chapter 2 setup cell. -/
def chapter2_PACKAGES : List String := ["boto3", "numpy", "matplotlib", "xarray", "zarr", "s3fs"]

/-- PACKAGES of the Echofish Chapter 3 setup cell. -/
def chapter3_PACKAGES : List String :=
  ["numpy", "pandas", "geopandas", "matplotlib", "xarray", "zarr", "folium", "boto3", "s3fs",
    "mapclassify"]

/-- packages of the TC PRIMED Chapter 1a setup cell. -/
def tcprimed_packages : List String := ["netCDF4", "numpy"]

/-- Chapter 1's rewrite inside the `except` branch:
`if package == 'echopype': package = 'echopype==0.8.4'`. -/
def chapter1_pin (p : String) : String := if p = "echopype" then "echopype==0.8.4" else p

/-- Chapter 2 installs every missing package under its bare name. -/
def chapter2_pin (p : String) : String := p

/-- Chapter 3's rewrite inside the `except` branch:
`if package == 'geopandas': package = 'geopandas==0.13.1'`. -/
def chapter3_pin (p : String) : String := if p = "geopandas" then "geopandas==0.13.1" else p

/-- TC PRIMED Chapter 1a installs every missing package under its bare name. -/
def tcprimed_pin (p : String) : String := p

/-! ## Remote data acquisition

Chapter 1 downloads six raw EK60 files from the `noaa-wcsd-pds` bucket with
an UNSIGNED boto3 client; Chapters 2 and 3 each open one Zarr store from the
`noaa-wcsd-zarr-pds` bucket through `s3fs.S3FileSystem(anon=True)`;
TC PRIMED Chapter 1a issues one plain `requests.get` for one NetCDF file. -/

/-- `file_names` of the Chapter 1 download cell. -/
def chapter1_file_names : List String :=
  ["SaKe2015-D20150719-T193412.raw",
   "SaKe2015-D20150719-T193443.raw",
   "SaKe2015-D20150719-T194042.raw",
   "SaKe2015-D20150719-T194642.raw",
   "SaKe2015-D20150719-T195242.raw",
   "SaKe2015-D20150719-T195842.raw"]

/-- `bucket_name` of Chapter 1. -/
def chapter1_bucket_name : String := "noaa-wcsd-pds"

/-- `ship_name` shared by the Echofish chapters. -/
def ship_name : String := "Bell_M._Shimada"

/-- `cruise_name` shared by the Echofish chapters. -/
def cruise_name : String := "SH1507"

/-- `sensor_name` shared by the Echofish chapters. -/
def sensor_name : String := "EK60"

/-- The S3 keys Chapter 1 downloads:
`f'data/raw/{ship_name}/{cruise_name}/{sensor_name}/{file_name}'`
for each entry of `file_names`. -/
def chapter1_download_keys : List String :=
  chapter1_file_names.map
    (fun file_name =>
      "data/raw/" ++ ship_name ++ "/" ++ cruise_name ++ "/" ++ sensor_name ++ "/" ++ file_name)

/-- `s3_zarr_store_path` of Chapter 2:
`f"{bucket_name}/level_2/{ship_name}/{cruise_name}/{sensor_name}/{zarr_store}"`
with `bucket_name = 'noaa-wcsd-zarr-pds'` and `zarr_store = f'{cruise_name}.zarr'`. -/
def chapter2_s3_zarr_store_path : String :=
  "noaa-wcsd-zarr-pds" ++ "/level_2/" ++ ship_name ++ "/" ++ cruise_name ++ "/" ++ sensor_name
    ++ "/" ++ (cruise_name ++ ".zarr")

/-- `s3_zarr_store_path` of Chapter 3, built from the same pieces with
`zarr_store = 'SH1507.zarr'`. -/
def chapter3_s3_zarr_store_path : String :=
  "noaa-wcsd-zarr-pds" ++ "/level_2/" ++ ship_name ++ "/" ++ cruise_name ++ "/" ++ sensor_name
    ++ "/" ++ "SH1507.zarr"

/-- `NODD_URL` of TC PRIMED Chapter 1a. -/
def NODD_URL : String := "https://noaa-nesdis-tcprimed-pds.s3.amazonaws.com/v01r01/final/2018/AL/06/"

/-- `FILE_NAME` of TC PRIMED Chapter 1a. -/
def FILE_NAME : String := "TCPRIMED_v01r01-final_AL062018_GMI_GPM_025677_20180905051440.nc"

/-- The four notebooks whose code cells appear in the sources. -/
inductive Notebook where
  | chapter1
  | chapter2
  | chapter3
  | tcprimed1a
deriving DecidableEq, Repr

/-- The remote objects each notebook fetches or opens as its input dataset:
Chapter 1 the six raw-file keys, Chapter 2 and Chapter 3 one Zarr store each,
TC PRIMED Chapter 1a one NetCDF file URL. -/
def remoteInputs : Notebook → List String
  | Notebook.chapter1 => chapter1_download_keys
  | Notebook.chapter2 => [chapter2_s3_zarr_store_path]
  | Notebook.chapter3 => [chapter3_s3_zarr_store_path]
  | Notebook.tcprimed1a => [NODD_URL ++ FILE_NAME]

/-- `/root/.echopype/temp_output/combined_echodata.zarr`, the scratch store
`ep.combine_echodata` writes and the Chapter 1 `rm -rf` cell clears. -/
def echopype_temp_store : String := "/root/.echopype/temp_output/combined_echodata.zarr"

/-- Local filesystem paths each notebook writes: Chapter 1 saves the six raw
files under their basenames (`Filename=os.path.basename(file_name)`) and lets
echopype write its scratch Zarr store; the other notebooks write no local
file. -/
def localWrites : Notebook → List String
  | Notebook.chapter1 => chapter1_file_names ++ [echopype_temp_store]
  | Notebook.chapter2 => []
  | Notebook.chapter3 => []
  | Notebook.tcprimed1a => []

/-- Local filesystem paths each notebook reads: Chapter 1 re-opens the six
raw files it downloaded (`ep.open_raw(raw_file=file_names[i], ...)`) and the
echopype scratch store; Chapters 2 and 3 read their Zarr store remotely and
TC PRIMED Chapter 1a keeps the fetched bytes in memory
(`Dataset(FILE_NAME, memory=url_response.content)`). -/
def localReads : Notebook → List String
  | Notebook.chapter1 => chapter1_file_names ++ [echopype_temp_store]
  | Notebook.chapter2 => []
  | Notebook.chapter3 => []
  | Notebook.tcprimed1a => []

/-! ## Client authentication

Chapter 1 and Chapter 3 build `boto3.client('s3',
config=Config(signature_version=UNSIGNED))`; Chapters 2 and 3 build
`s3fs.S3FileSystem(anon=True)`; TC PRIMED Chapter 1a calls `requests.get`
with no auth argument.  Authentication is modelled as the credential
material a client attaches to its requests, as a function of whatever
credentials sit in the environment. -/

/-- Credentials that may be present in the runtime environment. -/
structure Credentials where
  accessKey : String
  secretKey : String
deriving DecidableEq, Repr

/-- The authentication a request carries. -/
inductive Auth where
  | anonymous
  | sigV4 (accessKey secretKey : String)
deriving DecidableEq, Repr

/-- botocore signature configuration: `UNSIGNED` or the default signer. -/
inductive SignatureVersion where
  | unsigned
  | sigv4
deriving DecidableEq, Repr

/-- The authentication a boto3 client attaches, given its configured
signature version and the environment credentials: `UNSIGNED` sends no
credential material at all. -/
def botoClientAuth (sv : SignatureVersion) (env : Credentials) : Auth :=
  match sv with
  | SignatureVersion.unsigned => Auth.anonymous
  | SignatureVersion.sigv4 => Auth.sigV4 env.accessKey env.secretKey

/-- The authentication an `s3fs.S3FileSystem` attaches given its `anon`
flag: `anon=True` sends no credential material. -/
def s3fsAuth (anon : Bool) (env : Credentials) : Auth :=
  if anon then Auth.anonymous else Auth.sigV4 env.accessKey env.secretKey

/-- A plain `requests.get` with no auth argument sends no credential
material. -/
def requestsGetAuth (_env : Credentials) : Auth := Auth.anonymous

/-- A remote request: target object and the authentication it carries. -/
structure RemoteRequest where
  url : String
  auth : Auth
deriving DecidableEq, Repr

/-- The remote requests a notebook issues, as a function of the environment
credentials, with each request built through the client the notebook
actually configures. -/
def notebookRequests (n : Notebook) (env : Credentials) : List RemoteRequest :=
  match n with
  | Notebook.chapter1 =>
    chapter1_download_keys.map
      (fun k => { url := chapter1_bucket_name ++ "/" ++ k,
                  auth := botoClientAuth SignatureVersion.unsigned env })
  | Notebook.chapter2 =>
    [{ url := chapter2_s3_zarr_store_path, auth := s3fsAuth true env }]
  | Notebook.chapter3 =>
    [{ url := chapter3_s3_zarr_store_path, auth := s3fsAuth true env }]
  | Notebook.tcprimed1a =>
    [{ url := NODD_URL ++ FILE_NAME, auth := requestsGetAuth env }]

/-- A notebook's downloaded contents: the object store's response to each
request it issues. -/
def notebookFetched {α : Type} (server : RemoteRequest → α) (n : Notebook)
    (env : Credentials) : List α :=
  (notebookRequests n env).map server

/-! ## The Chapter 2 Sv pipeline

The Level 2 cruise Dataset carries an `Sv` DataArray over coordinates
depth (metres, modelled as ℚ), time (np.datetime64, modelled as ℤ seconds
since the Unix epoch) and frequency (Hz, modelled as ℤ).  A cell value is
`Option ℚ`, with `none` standing for NaN. -/

/-- The cruise Dataset opened by `xr.open_zarr`. -/
structure Cruise where
  depths : List ℚ
  times : List ℤ
  freqs : List ℤ
  Sv : ℤ → ℚ → ℤ → Option ℚ

/-- A two-dimensional Sv DataArray over (depth, time), as obtained after
selecting one frequency. -/
structure DArray where
  depths : List ℚ
  times : List ℤ
  val : ℚ → ℤ → Option ℚ

/-- xarray `cruise.sel(frequency=f)` followed by `.Sv`: fixes the frequency
coordinate, leaving a (depth, time) array. -/
def sel (c : Cruise) (f : ℤ) : DArray :=
  { depths := c.depths, times := c.times, val := fun d t => c.Sv f d t }

/-- xarray `.where(cond, drop=True)` for a condition that is an outer
conjunction of a depth predicate and a time predicate (the notebook's
`select_times`, `select_depths`, and their `&`): positions failing the
condition are masked to NaN and, the condition being a product of
one-dimensional predicates, the failing depth and time labels are dropped
from the coordinates. -/
def where_drop (a : DArray) (pd : ℚ → Bool) (pt : ℤ → Bool) : DArray :=
  { depths := a.depths.filter pd,
    times := a.times.filter pt,
    val := fun d t => if pd d && pt t then a.val d t else none }

/-- `start_time = np.datetime64('2015-07-19T19:00:00')`, as Unix seconds. -/
def start_time : ℤ := 1437332400

/-- `end_time = np.datetime64('2015-07-19T20:00:00')`, as Unix seconds. -/
def end_time : ℤ := 1437336000

/-- `start_depth = 0`. -/
def start_depth : ℚ := 0

/-- `end_depth = 500`. -/
def end_depth : ℚ := 500

/-- `select_times = (cruise.time > start_time) & (cruise.time < end_time)`. -/
def select_times (t : ℤ) : Bool := decide (start_time < t) && decide (t < end_time)

/-- `select_depths = (cruise.depth > start_depth) & (cruise.depth < end_depth)`. -/
def select_depths (d : ℚ) : Bool := decide (start_depth < d) && decide (d < end_depth)

/-- `Sv_38 = cruise.sel(frequency=38000).where((select_times), drop=True).Sv`
— time subsetting only. -/
def Sv_38 (c : Cruise) : DArray :=
  where_drop (sel c 38000) (fun _ => true) select_times

/-- `Sv_38_subset = Sv_38.where((select_depths), drop=True)`. -/
def Sv_38_subset (c : Cruise) : DArray :=
  where_drop (Sv_38 c) select_depths (fun _ => true)

/-- `Sv_18 = cruise.sel(frequency=18000).where((select_times) & (select_depths), drop=True).Sv`. -/
def Sv_18 (c : Cruise) : DArray :=
  where_drop (sel c 18000) select_depths select_times

/-- `Sv_120 = cruise.sel(frequency=120000).where((select_times) & (select_depths), drop=True).Sv`. -/
def Sv_120 (c : Cruise) : DArray :=
  where_drop (sel c 120000) select_depths select_times

/-- `Sv_200 = cruise.sel(frequency=200000).where((select_times) & (select_depths), drop=True).Sv`. -/
def Sv_200 (c : Cruise) : DArray :=
  where_drop (sel c 200000) select_depths select_times

/-- `Sv_120_subset = Sv_120.where((select_depths), drop=True)`. -/
def Sv_120_subset (c : Cruise) : DArray :=
  where_drop (Sv_120 c) select_depths (fun _ => true)

/-- Cell-level subtraction with NaN propagation: NaN minus anything, and
anything minus NaN, is NaN. -/
def optSub : Option ℚ → Option ℚ → Option ℚ
  | some x, some y => some (x - y)
  | _, _ => none

/-- xarray binary arithmetic between two DataArrays: coordinates are
aligned by inner join (labels present in both operands survive) and cells
subtract with NaN propagation. -/
def sub (a b : DArray) : DArray :=
  { depths := a.depths.filter (fun d => b.depths.contains d),
    times := a.times.filter (fun t => b.times.contains t),
    val := fun d t => optSub (a.val d t) (b.val d t) }

/-- `Sv_select_diff = first_freq_array - second_freq_array` with
`first_freq_array = Sv_120` and `second_freq_array = Sv_38`. -/
def Sv_select_diff (c : Cruise) : DArray :=
  sub (Sv_120 c) (Sv_38 c)

/-- xarray `.dropna(dim='depth')`: removes every depth label whose row
contains at least one NaN. -/
def dropna_depth (a : DArray) : DArray :=
  { depths := a.depths.filter (fun d => a.times.all (fun t => (a.val d t).isSome)),
    times := a.times,
    val := a.val }

/-- `Sv_select_diff = Sv_select_diff.dropna(dim='depth')`. -/
def Sv_select_diff_dropna (c : Cruise) : DArray :=
  dropna_depth (Sv_select_diff c)

/-! ## The single library calls named as the hardest operations

`ds_Sv = ep.calibrate.compute_Sv(combined_echodata)` in Chapter 1 and
`passive_microwave_group = DS["passive_microwave"]` in TC PRIMED Chapter 1a
are bare applications of the named library function; they are embedded
parametrically in the library function to state that nothing is wrapped
around the call. -/

/-- Chapter 1's `ds_Sv = ep.calibrate.compute_Sv(combined_echodata)`. -/
def ds_Sv {α β : Type} (compute_Sv : α → β) (combined_echodata : α) : β :=
  compute_Sv combined_echodata

/-- TC PRIMED Chapter 1a's `passive_microwave_group = DS["passive_microwave"]`:
netCDF4 group indexing with the literal group name. -/
def passive_microwave_group {ν γ : Type} (index : ν → String → γ) (DS : ν) : γ :=
  index DS "passive_microwave"

/-! ## Chapter 3 line simplification

Chapter 3 builds `linestring = geom.LineString([xy for xy in
zip(gps_gdf.latitude, gps_gdf.longitude)])` and calls
`lineSimplified = linestring.simplify(tolerance=0.01, preserve_topology=True)`.
Shapely's code is not part of this repository; the notebook documents the
call as "simplified using the Ramer–Douglas–Peucker algorithm ... specified
with a single tolerance value, here that value is set to 0.01", so the
library function is modelled as that algorithm over exact rational
coordinates. -/

/-- A linestring coordinate. -/
abbrev Point := ℚ × ℚ

/-- Squared Euclidean distance between two points. -/
def dist2 (a b : Point) : ℚ := (b.1 - a.1) ^ 2 + (b.2 - a.2) ^ 2

/-- Cross product of `b - a` with `p - a`; its square over `dist2 a b` is
the squared distance from `p` to the line through `a` and `b`, so the
Ramer–Douglas–Peucker test `dist > tolerance` is the exact comparison
`cross a b p ^ 2 > tolerance ^ 2 * dist2 a b`. -/
def cross (a b p : Point) : ℚ := (b.1 - a.1) * (p.2 - a.2) - (b.2 - a.2) * (p.1 - a.1)

/-- Index with the largest key among the candidates, seeded with `i0`. -/
def argmaxKey (key : ℕ → ℚ) (l : List ℕ) (i0 : ℕ) : ℕ :=
  l.foldl (fun acc i => if key acc < key i then i else acc) i0

theorem argmaxKey_mem (key : ℕ → ℚ) (l : List ℕ) (i0 : ℕ) :
    argmaxKey key l i0 = i0 ∨ argmaxKey key l i0 ∈ l := by
  induction l generalizing i0 with
  | nil => exact Or.inl rfl
  | cons a t ih =>
    have hred : argmaxKey key (a :: t) i0
        = argmaxKey key t (if key i0 < key a then a else i0) := rfl
    rw [hred]
    rcases ih (if key i0 < key a then a else i0) with h | h
    · rw [h]
      by_cases hc : key i0 < key a
      · simp [hc]
      · simp [hc]
    · exact Or.inr (List.mem_cons_of_mem a h)

/-- The interior index `1 ≤ i ≤ n - 2` of the vertex farthest from the
chord, for a polyline of `n ≥ 3` points. -/
def splitIdx (key : ℕ → ℚ) (n : ℕ) : ℕ := argmaxKey key (List.range' 1 (n - 2)) 1

theorem splitIdx_pos (key : ℕ → ℚ) (n : ℕ) : 1 ≤ splitIdx key n := by
  rcases argmaxKey_mem key (List.range' 1 (n - 2)) 1 with h | h
  · simp [splitIdx, h]
  · have := List.mem_range'.mp h
    simp [splitIdx]
    rcases argmaxKey_mem key (List.range' 1 (n - 2)) 1 with h2 | h2
    · omega
    · have := List.mem_range'.mp h2; omega

theorem splitIdx_le (key : ℕ → ℚ) (n : ℕ) (hn : 3 ≤ n) : splitIdx key n ≤ n - 2 := by
  rcases argmaxKey_mem key (List.range' 1 (n - 2)) 1 with h | h
  · simp [splitIdx, h]; omega
  · have := List.mem_range'.mp h
    simp only [splitIdx]
    omega

/-- Modelled from the spec: Shapely's Douglas–Peucker simplification, which
is not code of this repository.  Following the notebook's description of
`simplify`, a polyline of more than two points keeps its endpoints, finds
the interior vertex farthest from the chord joining them, and either
recurses on the two halves around that vertex (when its distance exceeds
the tolerance) or collapses to the chord. -/
def rdp (tol : ℚ) : List Point → List Point
  | [] => []
  | [p] => [p]
  | [p, q] => [p, q]
  | p :: q :: r :: rest =>
    let l := p :: q :: r :: rest
    let lastp := l.getLastD p
    let key : ℕ → ℚ := fun j => (cross p lastp (l.getD j p)) ^ 2
    let i := splitIdx key l.length
    if tol ^ 2 * dist2 p lastp < key i then
      rdp tol (l.take (i + 1)) ++ (rdp tol (l.drop i)).tail
    else [p, lastp]
termination_by l => l.length
decreasing_by
  · simp only [List.length_take, List.length_cons]
    have h1 := splitIdx_pos (fun j => (cross p ((p :: q :: r :: rest).getLastD p)
      (((p :: q :: r :: rest)).getD j p)) ^ 2) (p :: q :: r :: rest).length
    have h2 := splitIdx_le (fun j => (cross p ((p :: q :: r :: rest).getLastD p)
      (((p :: q :: r :: rest)).getD j p)) ^ 2) (p :: q :: r :: rest).length (by simp)
    simp only [List.length_cons] at h1 h2 ⊢
    omega
  · simp only [List.length_drop, List.length_cons]
    have h1 := splitIdx_pos (fun j => (cross p ((p :: q :: r :: rest).getLastD p)
      (((p :: q :: r :: rest)).getD j p)) ^ 2) (p :: q :: r :: rest).length
    simp only [List.length_cons] at h1 ⊢
    omega

/-- Modelled from the spec: Shapely's `simplify(tolerance, preserve_topology)`
entry point, which is not code of this repository, applied to a linestring's
coordinate sequence. -/
def simplify (coords : List Point) (tolerance : ℚ) (_preserve_topology : Bool) : List Point :=
  rdp tolerance coords

/-- Chapter 3's `linestring = geom.LineString([xy for xy in
zip(gps_gdf.latitude, gps_gdf.longitude)])`. -/
def linestring (latitude longitude : List ℚ) : List Point :=
  latitude.zip longitude

/-- Chapter 3's `lineSimplified = linestring.simplify(tolerance=0.01,
preserve_topology=True)`. -/
def lineSimplified (coords : List Point) : List Point :=
  simplify coords (1 / 100) true

theorem getLastD_mem {α : Type} : ∀ (l : List α) (d : α), l ≠ [] → l.getLastD d ∈ l
  | [a], _, _ => by simp
  | a :: b :: t, d, _ => by
    rw [List.getLastD_cons]
    exact List.mem_cons_of_mem a (getLastD_mem (b :: t) a (by simp))

theorem head?_append_left {α : Type} (l₁ l₂ : List α) (h : l₁ ≠ []) :
    (l₁ ++ l₂).head? = l₁.head? := by
  cases l₁ with
  | nil => exact absurd rfl h
  | cons a t => rfl

theorem getLast?_cons_eq {α : Type} (p : α) (t : List α) :
    (p :: t).getLast? = some ((p :: t).getLastD p) := by
  rw [List.getLast?_cons, List.getLastD_cons, List.getLastD_eq_getLast?]

/-- The Ramer–Douglas–Peucker output is an order-preserving subsequence of
the input that keeps the first and last coordinates; proved by strong
induction on the length. -/
theorem rdp_spec_aux (tol : ℚ) :
    ∀ (n : ℕ) (l : List Point), l.length ≤ n →
      List.Sublist (rdp tol l) l ∧ (rdp tol l).head? = l.head? ∧
        (rdp tol l).getLast? = l.getLast? := by
  intro n
  induction n with
  | zero =>
    intro l hl
    obtain rfl : l = [] := List.eq_nil_of_length_eq_zero (Nat.le_zero.mp hl)
    exact ⟨by rw [rdp.eq_1], by rw [rdp.eq_1], by rw [rdp.eq_1]⟩
  | succ n ih =>
    intro l hl
    rcases l with _ | ⟨p, _ | ⟨q, _ | ⟨r, rest⟩⟩⟩
    · exact ⟨by rw [rdp.eq_1], by rw [rdp.eq_1], by rw [rdp.eq_1]⟩
    · exact ⟨by rw [rdp.eq_2], by rw [rdp.eq_2], by rw [rdp.eq_2]⟩
    · exact ⟨by rw [rdp.eq_3], by rw [rdp.eq_3], by rw [rdp.eq_3]⟩
    · rw [rdp.eq_4]
      set L : List Point := p :: q :: r :: rest with hL
      set lastp : Point := L.getLastD p with hlastp
      set key : ℕ → ℚ := fun j => cross p lastp (L.getD j p) ^ 2 with hkey
      set i : ℕ := splitIdx key L.length with hi
      have hLlen : L.length = rest.length + 3 := by simp [hL]
      have hi1 : 1 ≤ i := splitIdx_pos key L.length
      have hi2 : i ≤ L.length - 2 := splitIdx_le key L.length (by omega)
      have hilt : i < L.length := by omega
      have hLne : L ≠ [] := by simp [hL]
      have hlast? : L.getLast? = some lastp := by
        rw [hlastp, hL]; exact getLast?_cons_eq p (q :: r :: rest)
      by_cases hcond : tol ^ 2 * dist2 p lastp < key i
      · rw [if_pos hcond]
        have hTlen : (List.take (i + 1) L).length ≤ n := by
          rw [List.length_take]; omega
        have hDlen : (List.drop i L).length ≤ n := by
          rw [List.length_drop]; omega
        obtain ⟨subT, headT, lastT⟩ := ih (List.take (i + 1) L) hTlen
        obtain ⟨subD, headD, lastD⟩ := ih (List.drop i L) hDlen
        have hdropeq : List.drop i L = L[i] :: List.drop (i + 1) L :=
          List.drop_eq_getElem_cons hilt
        have hheadB : (rdp tol (List.drop i L)).head? = some L[i] := by
          rw [headD, hdropeq]; rfl
        obtain ⟨bt, hB⟩ : ∃ bt, rdp tol (List.drop i L) = L[i] :: bt := by
          cases hBe : rdp tol (List.drop i L) with
          | nil => rw [hBe] at hheadB; exact absurd hheadB (by simp)
          | cons b bt =>
            rw [hBe] at hheadB
            have hb : b = L[i] := by simpa using hheadB
            exact ⟨bt, by rw [hb]⟩
        have btsub : List.Sublist bt (List.drop (i + 1) L) := by
          rw [hB, hdropeq] at subD
          exact List.cons_sublist_cons.mp subD
        have hTheadp : (List.take (i + 1) L).head? = some p := by
          rw [hL, List.take_succ_cons]; rfl
        have hAhead : (rdp tol (List.take (i + 1) L)).head? = some p := headT.trans hTheadp
        obtain ⟨at_, hA⟩ : ∃ at_, rdp tol (List.take (i + 1) L) = p :: at_ := by
          cases hAe : rdp tol (List.take (i + 1) L) with
          | nil => rw [hAe] at hAhead; exact absurd hAhead (by simp)
          | cons a at_ =>
            rw [hAe] at hAhead
            have ha : a = p := by simpa using hAhead
            exact ⟨at_, by rw [ha]⟩
        have hTlast : (List.take (i + 1) L).getLast? = some L[i] := by
          rw [List.take_succ, List.getElem?_eq_getElem hilt]
          rw [List.getLast?_append_of_ne_nil _ (by simp)]
          rfl
        have hAlast : (rdp tol (List.take (i + 1) L)).getLast? = some L[i] :=
          lastT.trans hTlast
        have hDne : List.drop i L ≠ [] := by
          intro hc
          have := congrArg List.length hc
          rw [List.length_drop] at this
          simp at this
          omega
        have hDlast : (List.drop i L).getLast? = L.getLast? := by
          conv_rhs => rw [← List.take_append_drop i L]
          rw [List.getLast?_append_of_ne_nil _ hDne]
        have hBlast : (rdp tol (List.drop i L)).getLast? = L.getLast? := lastD.trans hDlast
        refine ⟨?_, ?_, ?_⟩
        · rw [hB]
          have happ : List.Sublist (rdp tol (List.take (i + 1) L) ++ bt)
              (List.take (i + 1) L ++ List.drop (i + 1) L) :=
            List.Sublist.append subT btsub
          rw [List.take_append_drop] at happ
          simpa [hB] using happ
        · rw [hA]; rfl
        · rcases bt with _ | ⟨c, ct⟩
          · rw [hB]
            simp only [List.tail_cons, List.append_nil]
            rw [hAlast]
            rw [hB] at hBlast
            simp only [List.getLast?_singleton] at hBlast
            exact hBlast
          · rw [hB]
            simp only [List.tail_cons]
            rw [List.getLast?_append_of_ne_nil _ (by simp)]
            rw [hB] at hBlast
            rw [List.getLast?_cons_cons] at hBlast
            exact hBlast
      · rw [if_neg hcond]
        have hmem : lastp ∈ q :: r :: rest := by
          rw [hlastp, hL, List.getLastD_cons]
          exact getLastD_mem (q :: r :: rest) p (by simp)
        refine ⟨?_, rfl, ?_⟩
        · exact List.cons_sublist_cons.mpr (List.singleton_sublist.mpr hmem)
        · rw [hlast?]; rfl

/-! ## Claim theorems -/

/-- C2 fails on the code: the Chapter 1 echofish notebook's data-acquisition
step downloads six remote files, not one — `file_names` has six entries and
the `s3.download_file` loop fetches each of them. -/
theorem claim2_counterexample :
    (remoteInputs Notebook.chapter1).length = 6 ∧ (remoteInputs Notebook.chapter1).length ≠ 1 := by
  constructor
  · rfl
  · intro h
    rw [show (remoteInputs Notebook.chapter1).length = 6 from rfl] at h
    exact absurd h (by omega)

/-- C2, amended: each of the Chapter 2, Chapter 3 and TC PRIMED Chapter 1a
notebooks fetches exactly one remote dataset in its data-acquisition step,
while the Chapter 1 echofish notebook downloads exactly six remote raw
files. -/
theorem claim2_amended_theorem :
    (remoteInputs Notebook.chapter1).length = 6
    ∧ (remoteInputs Notebook.chapter2).length = 1
    ∧ (remoteInputs Notebook.chapter3).length = 1
    ∧ (remoteInputs Notebook.tcprimed1a).length = 1 :=
  ⟨rfl, rfl, rfl, rfl⟩

/-- C4: each of the four operations the spec names as hardest is realised as
a single call into the named third-party library — Chapter 1's `ds_Sv` is
exactly `compute_Sv` applied to `combined_echodata` for every behaviour of
echopype, TC PRIMED Chapter 1a's `passive_microwave_group` is exactly one
netCDF4 group indexing, Chapter 2's `Sv_120` is exactly the xarray
`sel`/`where` application, and Chapter 3's `lineSimplified` is exactly one
Shapely `simplify` call at tolerance 0.01. -/
theorem claim4_theorem :
    (∀ (α β : Type) (compute_Sv : α → β) (combined_echodata : α),
      ds_Sv compute_Sv combined_echodata = compute_Sv combined_echodata)
    ∧ (∀ (ν γ : Type) (index : ν → String → γ) (DS : ν),
      passive_microwave_group index DS = index DS "passive_microwave")
    ∧ (∀ c : Cruise, Sv_120 c = where_drop (sel c 120000) select_depths select_times)
    ∧ (∀ coords : List Point, lineSimplified coords = simplify coords (1 / 100) true) :=
  ⟨fun _ _ _ _ => rfl, fun _ _ _ _ => rfl, fun _ => rfl, fun _ => rfl⟩

/-- C6: every remote retrieval goes through an anonymously configured
client, so the requests a notebook issues — and hence the contents fetched
and everything computed from them — are identical for any two runs that
differ only in the credentials present in the environment, and every
request carries anonymous authentication. -/
theorem claim6_theorem (n : Notebook) (env1 env2 : Credentials) :
    notebookRequests n env1 = notebookRequests n env2
    ∧ (∀ (α : Type) (server : RemoteRequest → α),
        notebookFetched server n env1 = notebookFetched server n env2)
    ∧ (notebookRequests n env1).all (fun r => decide (r.auth = Auth.anonymous)) = true := by
  cases n <;> exact ⟨rfl, fun _ _ => rfl, rfl⟩

/-- C9: the `simplify(tolerance=0.01, preserve_topology=True)` call of
Chapter 3 never adds points — the simplified linestring has at most as many
coordinates as the original, its coordinate sequence is an order-preserving
subsequence of the original's, and the first and last coordinates are
preserved. -/
theorem claim9_theorem (latitude longitude : List ℚ) :
    (lineSimplified (linestring latitude longitude)).length
        ≤ (linestring latitude longitude).length
    ∧ List.Sublist (lineSimplified (linestring latitude longitude))
        (linestring latitude longitude)
    ∧ (lineSimplified (linestring latitude longitude)).head?
        = (linestring latitude longitude).head?
    ∧ (lineSimplified (linestring latitude longitude)).getLast?
        = (linestring latitude longitude).getLast? := by
  obtain ⟨hsub, hhead, hlast⟩ := rdp_spec_aux (1 / 100)
    (linestring latitude longitude).length (linestring latitude longitude) le_rfl
  exact ⟨hsub.length_le, hsub, hhead, hlast⟩

/-- C3 fails on the code: the package-setup cells do catch a raised
exception and take a recovery action.  In a state where every package is
missing, `__import__('boto3')` raises ImportError inside the Chapter 2
setup cell, yet the cell completes normally (installing the packages)
instead of producing that error at the cell boundary. -/
theorem claim3_counterexample :
    importAttempt (fun _ => false) "boto3" = Except.error PyError.importError
    ∧ runInstallCell (importAttempt (fun _ => false)) (fun _ => true) chapter2_pin
        chapter2_PACKAGES = Except.ok chapter2_PACKAGES :=
  ⟨rfl, rfl⟩

/-- C3, amended: the only failure handling the notebooks contain is the
package-setup cells' `except ImportError`, which recovers by invoking pip
install — an ImportError raised by an import attempt never reaches the cell
boundary, while any other error raised there, and a failing pip subprocess,
still propagates uncaught. -/
theorem claim3_amended_theorem (imp : String → Except PyError Unit) (pipOk : String → Bool)
    (pin : String → String) (pkgs : List String) :
    runInstallCell imp pipOk pin pkgs ≠ Except.error PyError.importError
    ∧ (∀ p ps, imp p = Except.error PyError.otherError →
        runInstallCell imp pipOk pin (p :: ps) = Except.error PyError.otherError)
    ∧ (∀ p ps, imp p = Except.error PyError.importError → pipOk (pin p) = false →
        runInstallCell imp pipOk pin (p :: ps) = Except.error PyError.calledProcessError) := by
  refine ⟨?_, ?_, ?_⟩
  · induction pkgs with
    | nil => simp [runInstallCell]
    | cons p ps ih =>
      rw [runInstallCell]
      cases himp : imp p with
      | ok u => cases u; exact ih
      | error e =>
        cases e with
        | importError =>
          cases hpip : pipInstall pipOk (pin p) with
          | ok u =>
            cases u
            cases hrec : runInstallCell imp pipOk pin ps with
            | ok l => simp [Except.map]
            | error e2 =>
              rw [hrec] at ih
              simp only [Except.map]
              intro hcontra
              exact ih (by injection hcontra with h; rw [h])
          | error e2 =>
            have : e2 = PyError.calledProcessError := by
              by_contra hne
              rw [pipInstall] at hpip
              rcases hb : pipOk (pin p) with _ | _ <;> rw [hb] at hpip <;> simp at hpip
              exact hne hpip.symm
            subst this
            simp
        | calledProcessError => simp
        | otherError => simp
  · intro p ps himp
    rw [runInstallCell, himp]
  · intro p ps himp hpip
    rw [runInstallCell, himp, pipInstall, hpip]
    rfl

/-- Witness for the amended C3: with every import raising a non-ImportError
error the Chapter 2 setup cell propagates that error, and with pip failing
on a missing `boto3` it propagates CalledProcessError. -/
theorem claim3_amended_witness :
    runInstallCell (fun _ => Except.error PyError.otherError) (fun _ => true) chapter2_pin
        ("boto3" :: ["numpy", "matplotlib", "xarray", "zarr", "s3fs"])
      = Except.error PyError.otherError
    ∧ runInstallCell (fun _ => Except.error PyError.importError) (fun _ => false) chapter2_pin
        ("boto3" :: []) = Except.error PyError.calledProcessError := by
  constructor
  · exact (claim3_amended_theorem (fun _ => Except.error PyError.otherError) (fun _ => true)
      chapter2_pin []).2.1 "boto3" ["numpy", "matplotlib", "xarray", "zarr", "s3fs"] rfl
  · exact (claim3_amended_theorem (fun _ => Except.error PyError.importError) (fun _ => false)
      chapter2_pin []).2.2 "boto3" [] rfl rfl

/-- C5: no state is shared across notebooks — for every pair of distinct
notebooks the local paths one writes are disjoint from the local paths the
other reads, and every local path a notebook reads is one it wrote
(downloaded) itself, all remaining inputs coming from remote public object
storage. -/
theorem claim5_theorem (a b : Notebook) (hab : a ≠ b) :
    (∀ p, p ∈ localWrites a → p ∉ localReads b)
    ∧ (∀ (n : Notebook) (p : String), p ∈ localReads n → p ∈ localWrites n) := by
  constructor
  · intro p hp
    cases a <;> cases b <;> try exact absurd rfl hab
    all_goals try (simp [localWrites] at hp)
    all_goals simp [localReads]
  · intro n p hp
    cases n
    case chapter1 => simp only [localWrites, localReads] at hp ⊢; exact hp
    all_goals simp [localReads] at hp

/-- Witness for C5: the first raw file Chapter 1 writes is not read by
Chapter 2, and is among Chapter 1's own writes. -/
theorem claim5_witness :
    "SaKe2015-D20150719-T193412.raw" ∉ localReads Notebook.chapter2
    ∧ "SaKe2015-D20150719-T193412.raw" ∈ localWrites Notebook.chapter1 := by
  constructor
  · exact (claim5_theorem Notebook.chapter1 Notebook.chapter2 (by simp)).1
      "SaKe2015-D20150719-T193412.raw"
      (by simp [localWrites, chapter1_file_names])
  · exact (claim5_theorem Notebook.chapter1 Notebook.chapter2 (by simp)).2 Notebook.chapter1
      "SaKe2015-D20150719-T193412.raw"
      (by simp [localReads, chapter1_file_names])

/-- C8: in every setup cell pip install is invoked for exactly the packages
whose import raises ImportError — an importable package causes no subprocess
call — and a missing `echopype` in the Chapter 1 cell is installed under the
pinned requirement string `echopype==0.8.4`. -/
theorem claim8_theorem (importable : String → Bool) (pin : String → String)
    (pkgs : List String) :
    runInstallCell (importAttempt importable) (fun _ => true) pin pkgs
      = Except.ok (pkgs.filterMap (fun p => if importable p then none else some (pin p)))
    ∧ (∀ p, importAttempt importable p = Except.error PyError.importError ↔ importable p = false)
    ∧ chapter1_pin "echopype" = "echopype==0.8.4"
    ∧ (importable "echopype" = false →
        "echopype==0.8.4" ∈ chapter1_PACKAGES.filterMap
          (fun p => if importable p then none else some (chapter1_pin p))) := by
  refine ⟨?_, ?_, rfl, ?_⟩
  · induction pkgs with
    | nil => rfl
    | cons p ps ih =>
      rw [runInstallCell]
      rcases hb : importable p with _ | _
      · rw [importAttempt, hb]
        simp only [Bool.false_eq_true, if_false, List.filterMap_cons, hb]
        rw [show pipInstall (fun _ => true) (pin p) = Except.ok () from rfl, ih]
        rfl
      · rw [importAttempt, hb]
        simp only [if_true, List.filterMap_cons, hb]
        exact ih
  · intro p
    rw [importAttempt]
    rcases hb : importable p with _ | _ <;> simp [hb]
  · intro h
    refine List.mem_filterMap.mpr ⟨"echopype", by simp [chapter1_PACKAGES], ?_⟩
    rw [h]
    rfl

/-- Witness for C8: with no package importable, the Chapter 1 setup cell
installs exactly `boto3`, `botocore` and the pinned `echopype==0.8.4`, and
the pinned string is among the requirement strings installed. -/
theorem claim8_witness :
    runInstallCell (importAttempt (fun _ => false)) (fun _ => true) chapter1_pin
        chapter1_PACKAGES = Except.ok ["boto3", "botocore", "echopype==0.8.4"]
    ∧ "echopype==0.8.4" ∈ chapter1_PACKAGES.filterMap
        (fun p => if (fun _ : String => false) p then none else some (chapter1_pin p)) := by
  have h := claim8_theorem (fun _ => false) chapter1_pin chapter1_PACKAGES
  exact ⟨h.1.trans (by rfl), h.2.2.2 rfl⟩

/-- A member of a filtered list satisfies the predicate, contrapositively. -/
theorem not_mem_filter {α : Type} (p : α → Bool) (l : List α) (a : α) (h : p a = false) :
    a ∉ l.filter p := by
  intro hm
  rw [List.mem_filter, h] at hm
  exact absurd hm.2 (by simp)

/-- Concrete cruise used by the witnesses: two depth levels, two times
inside the selection window, the four standard frequencies, constant values
except for one NaN cell at frequency 120 kHz, depth 100, the earlier
time. -/
def testCruise : Cruise :=
  { depths := [100, 500],
    times := [1437332401, 1437335999],
    freqs := [18000, 38000, 120000, 200000],
    Sv := fun f d t =>
      if f = 120000 ∧ d = 100 ∧ t = 1437332401 then none else some ((f : ℚ)) }

/-- C1: for every (depth, time) coordinate present in both `Sv_120` and
`Sv_38`, the coordinate survives into `Sv_select_diff` and its value there
is `Sv_120` minus `Sv_38`, with NaN wherever either operand is NaN; and the
subsequent `dropna(dim='depth')` keeps exactly the depth levels all of
whose cells are non-NaN. -/
theorem claim1_theorem (c : Cruise) (d : ℚ) (t : ℤ)
    (hd120 : d ∈ (Sv_120 c).depths) (hd38 : d ∈ (Sv_38 c).depths)
    (ht120 : t ∈ (Sv_120 c).times) (ht38 : t ∈ (Sv_38 c).times) :
    d ∈ (Sv_select_diff c).depths
    ∧ t ∈ (Sv_select_diff c).times
    ∧ (Sv_select_diff c).val d t = optSub ((Sv_120 c).val d t) ((Sv_38 c).val d t)
    ∧ (∀ x y, (Sv_120 c).val d t = some x → (Sv_38 c).val d t = some y →
        (Sv_select_diff c).val d t = some (x - y))
    ∧ (((Sv_120 c).val d t = none ∨ (Sv_38 c).val d t = none) →
        (Sv_select_diff c).val d t = none)
    ∧ (∀ d2 : ℚ, d2 ∈ (Sv_select_diff_dropna c).depths ↔
        d2 ∈ (Sv_select_diff c).depths ∧
          ∀ t2 ∈ (Sv_select_diff c).times, ((Sv_select_diff c).val d2 t2).isSome = true) := by
  refine ⟨?_, ?_, rfl, ?_, ?_, ?_⟩
  · exact List.mem_filter.mpr ⟨hd120, by simpa using hd38⟩
  · exact List.mem_filter.mpr ⟨ht120, by simpa using ht38⟩
  · intro x y hx hy
    show optSub ((Sv_120 c).val d t) ((Sv_38 c).val d t) = some (x - y)
    rw [hx, hy]
    rfl
  · intro h
    show optSub ((Sv_120 c).val d t) ((Sv_38 c).val d t) = none
    rcases h with h | h
    · rw [h]; rfl
    · rw [h]; cases (Sv_120 c).val d t <;> rfl
  · intro d2
    exact List.mem_filter.trans (and_congr_right fun _ => by
      rw [List.all_eq_true])

/-- Witness for C1: on `testCruise` the difference at depth 100 is NaN at
the time where the 120 kHz operand is NaN, equals 120000 − 38000 at the
other time, and `dropna` removes depth level 100. -/
theorem claim1_witness :
    (Sv_select_diff testCruise).val 100 1437332401 = none
    ∧ (Sv_select_diff testCruise).val 100 1437335999 = some ((120000 : ℚ) - 38000)
    ∧ (100 : ℚ) ∉ (Sv_select_diff_dropna testCruise).depths := by
  have hA := claim1_theorem testCruise 100 1437332401
    (by decide) (by decide) (by decide) (by decide)
  have hB := claim1_theorem testCruise 100 1437335999
    (by decide) (by decide) (by decide) (by decide)
  refine ⟨?_, ?_, ?_⟩
  · exact hA.2.2.2.2.1 (Or.inl (by decide))
  · exact hB.2.2.2.1 120000 38000 (by decide) (by decide)
  · intro hmem
    have h2 := ((hA.2.2.2.2.2 100).mp hmem).2 1437332401 hA.2.1
    rw [hA.2.2.2.2.1 (Or.inl (by decide))] at h2
    exact absurd h2 (by simp)

/-- C7: the time and depth subsetting uses strict inequalities on all four
bounds — `select_times` retains exactly the instants strictly between
19:00:00 and 20:00:00 on 2015-07-19 and `select_depths` exactly the depths
strictly between 0 and 500 m — and a sample lying exactly on a bound is
absent from every Sv subset built after the bounds are defined, including
the frequency difference and its dropna. -/
theorem claim7_theorem (c : Cruise) (t : ℤ) (d : ℚ) :
    (select_times t = true ↔ start_time < t ∧ t < end_time)
    ∧ (select_depths d = true ↔ start_depth < d ∧ d < end_depth)
    ∧ (t ∈ (Sv_120 c).times ↔ t ∈ c.times ∧ start_time < t ∧ t < end_time)
    ∧ (d ∈ (Sv_120 c).depths ↔ d ∈ c.depths ∧ start_depth < d ∧ d < end_depth)
    ∧ (start_time ∉ (Sv_18 c).times ∧ end_time ∉ (Sv_18 c).times
      ∧ start_time ∉ (Sv_120 c).times ∧ end_time ∉ (Sv_120 c).times
      ∧ start_time ∉ (Sv_200 c).times ∧ end_time ∉ (Sv_200 c).times
      ∧ start_time ∉ (Sv_38 c).times ∧ end_time ∉ (Sv_38 c).times
      ∧ start_depth ∉ (Sv_18 c).depths ∧ end_depth ∉ (Sv_18 c).depths
      ∧ start_depth ∉ (Sv_120 c).depths ∧ end_depth ∉ (Sv_120 c).depths
      ∧ start_depth ∉ (Sv_200 c).depths ∧ end_depth ∉ (Sv_200 c).depths
      ∧ start_depth ∉ (Sv_38_subset c).depths ∧ end_depth ∉ (Sv_38_subset c).depths
      ∧ start_depth ∉ (Sv_120_subset c).depths ∧ end_depth ∉ (Sv_120_subset c).depths
      ∧ start_time ∉ (Sv_select_diff c).times ∧ end_time ∉ (Sv_select_diff c).times
      ∧ start_depth ∉ (Sv_select_diff c).depths ∧ end_depth ∉ (Sv_select_diff c).depths
      ∧ start_depth ∉ (Sv_select_diff_dropna c).depths
      ∧ end_depth ∉ (Sv_select_diff_dropna c).depths) := by
  have h1 : ∀ x : ℤ, select_times x = true ↔ start_time < x ∧ x < end_time := by
    intro x; simp [select_times]
  have h2 : ∀ y : ℚ, select_depths y = true ↔ start_depth < y ∧ y < end_depth := by
    intro y; simp [select_depths]
  have hst : select_times start_time = false := by simp [select_times]
  have het : select_times end_time = false := by simp [select_times]
  have hsd : select_depths start_depth = false := by simp [select_depths]
  have hed : select_depths end_depth = false := by simp [select_depths]
  have h120t : ∀ x : ℤ, select_times x = false → x ∉ (Sv_120 c).times :=
    fun x hx => not_mem_filter select_times c.times x hx
  have h120d : ∀ y : ℚ, select_depths y = false → y ∉ (Sv_120 c).depths :=
    fun y hy => not_mem_filter select_depths c.depths y hy
  have hdifft : ∀ x : ℤ, select_times x = false → x ∉ (Sv_select_diff c).times :=
    fun x hx hm => (h120t x hx) (List.mem_filter.mp hm).1
  have hdiffd : ∀ y : ℚ, select_depths y = false → y ∉ (Sv_select_diff c).depths :=
    fun y hy hm => (h120d y hy) (List.mem_filter.mp hm).1
  have hdropd : ∀ y : ℚ, select_depths y = false → y ∉ (Sv_select_diff_dropna c).depths :=
    fun y hy hm => (hdiffd y hy) (List.mem_filter.mp hm).1
  refine ⟨h1 t, h2 d, ?_, ?_, ?_⟩
  · exact List.mem_filter.trans (and_congr_right fun _ => h1 t)
  · exact List.mem_filter.trans (and_congr_right fun _ => h2 d)
  · exact ⟨not_mem_filter select_times c.times _ hst,
      not_mem_filter select_times c.times _ het,
      h120t _ hst, h120t _ het,
      not_mem_filter select_times c.times _ hst,
      not_mem_filter select_times c.times _ het,
      not_mem_filter select_times c.times _ hst,
      not_mem_filter select_times c.times _ het,
      not_mem_filter select_depths c.depths _ hsd,
      not_mem_filter select_depths c.depths _ hed,
      h120d _ hsd, h120d _ hed,
      not_mem_filter select_depths c.depths _ hsd,
      not_mem_filter select_depths c.depths _ hed,
      not_mem_filter select_depths _ _ hsd,
      not_mem_filter select_depths _ _ hed,
      not_mem_filter select_depths _ _ hsd,
      not_mem_filter select_depths _ _ hed,
      hdifft _ hst, hdifft _ het,
      hdiffd _ hsd, hdiffd _ hed,
      hdropd _ hsd, hdropd _ hed⟩

/-- Witness for C7: on `testCruise`, an interior instant and depth are
retained while the boundary instant 19:00:00 and boundary depth 500 m are
excluded from the subset. -/
theorem claim7_witness :
    select_times 1437332401 = true
    ∧ select_depths 100 = true
    ∧ (1437332401 : ℤ) ∈ (Sv_120 testCruise).times
    ∧ start_time ∉ (Sv_120 testCruise).times
    ∧ end_depth ∉ (Sv_120 testCruise).depths := by
  have h := claim7_theorem testCruise 1437332401 100
  refine ⟨?_, ?_, ?_, ?_, ?_⟩
  · exact h.1.mpr (by constructor <;> decide)
  · exact h.2.1.mpr (by constructor <;> decide)
  · exact h.2.2.1.mpr (by refine ⟨by decide, by decide, by decide⟩)
  · exact h.2.2.2.2.2.2.1
  · intro hm
    have hiff := (claim7_theorem testCruise 1437332401 end_depth).2.2.2.1.mp hm
    exact absurd hiff.2.2 (lt_irrefl end_depth)

end LearningJourney
